import Mathlib

/-!
Verification of the adaptive-honeypot core against its specification.

The Python sources are shallowly embedded as Lean functions:

* `src/detectors/fingerprint.py`  -> `detect_tool`, `classify_client`
* `src/honeypot_core/logger.py`   -> `log_event`, `query_events` over `LoggerState`
* `src/honeypot_core/http_honeypot.py` -> `readHttpRequest`, `httpHandle`
* `src/honeypot_core/ssh_honeypot.py`  -> `sshLoop`, `sshSession`
* `src/honeypot_core/ftp_honeypot.py`  -> `ftpLoop`, `ftpSession`

Network and database I/O are replaced by explicit data: a connection is the
list of lines the peer sends (plus raw trailing bytes for HTTP bodies), the
SQLite table is a list of rows with an autoincrement counter, and success of
the durable insert is an explicit boolean parameter.  Nondeterministic inputs
(the wall-clock timestamp) are passed as parameters.  Text handling models the
ASCII behaviour of the Python string methods involved, which covers every
string the programs themselves produce and compare against.
-/

/-! ## Python string primitives (ASCII model) -/

/-- Characters removed by Python `str.strip()` with no argument
(space, tab, newline, carriage return, vertical tab, form feed). -/
def isPySpace (c : Char) : Bool :=
  c = ' ' || c = '\t' || c = '\n' || c = '\r' || c.toNat = 11 || c.toNat = 12

/-- Python `s.strip()`: drop whitespace from both ends. -/
def pyStrip (s : String) : String :=
  String.mk (((s.data.dropWhile isPySpace).reverse.dropWhile isPySpace).reverse)

/-- Python `line.strip(b"\r\n")`: drop CR and LF characters from both ends
(used by the SSH handler on each received line). -/
def stripCRLF (s : String) : String :=
  let f : Char → Bool := fun c => c = '\r' || c = '\n'
  String.mk (((s.data.dropWhile f).reverse.dropWhile f).reverse)

/-- Accumulator-style worker for `pySplitWs`. -/
def pySplitWsAux : List Char → List Char → List String
  | [], acc => if acc.isEmpty then [] else [String.mk acc.reverse]
  | c :: cs, acc =>
    if isPySpace c then
      if acc.isEmpty then pySplitWsAux cs []
      else String.mk acc.reverse :: pySplitWsAux cs []
    else pySplitWsAux cs (c :: acc)

/-- Python `s.split()` with no argument: split on runs of whitespace,
discarding empty pieces. -/
def pySplitWs (s : String) : List String :=
  pySplitWsAux s.data []

/-- Split a character list at the first occurrence of `sep`.  Returns the
part before it and, when `sep` occurs, the part after it.  This models
Python `s.split(sep, 1)` (two pieces at most). -/
def breakAtChar (sep : Char) : List Char → List Char × Option (List Char)
  | [] => ([], none)
  | c :: cs =>
    if c = sep then ([], some cs)
    else
      let r := breakAtChar sep cs
      (c :: r.1, r.2)

/-- ASCII lowercase of one character (model of `str.lower()` on the ASCII
range, which covers every signature pattern the program compares against). -/
def lowerChar (c : Char) : Char :=
  if 65 ≤ c.toNat && c.toNat ≤ 90 then Char.ofNat (c.toNat + 32) else c

/-- ASCII uppercase of one character. -/
def upperChar (c : Char) : Char :=
  if 97 ≤ c.toNat && c.toNat ≤ 122 then Char.ofNat (c.toNat - 32) else c

/-- Python `s.lower()` (ASCII model). -/
def lowerStr (s : String) : String := String.mk (s.data.map lowerChar)

/-- Python `s.upper()` (ASCII model). -/
def upperStr (s : String) : String := String.mk (s.data.map upperChar)

/-- Is `pat` a (contiguous) prefix of the second list? -/
def isPrefixList : List Char → List Char → Bool
  | [], _ => true
  | _ :: _, [] => false
  | a :: as, b :: bs => a = b && isPrefixList as bs

/-- Does `pat` occur contiguously inside `hay`?  Worker over suffixes. -/
def hasInfixList (pat : List Char) : List Char → Bool
  | [] => pat.isEmpty
  | c :: cs => isPrefixList pat (c :: cs) || hasInfixList pat cs

/-- Python substring containment `pat in hay`. -/
def strContains (hay pat : String) : Bool :=
  hasInfixList pat.data hay.data

/-- Digit-run accumulator for `pyIntParse`. -/
def natDigitsAux : List Char → Nat → Option Nat
  | [], acc => some acc
  | c :: cs, acc =>
    if c.isDigit then natDigitsAux cs (acc * 10 + (c.toNat - 48)) else none

/-- A nonempty all-digit run as a number. -/
def natDigits : List Char → Option Nat
  | [] => none
  | c :: cs => natDigitsAux (c :: cs) 0

/-- Python `int(s)` on decimal text: surrounding whitespace allowed, one
optional sign, then at least one digit.  (Underscore separators and
non-ASCII digits, which Python also accepts, never occur in the inputs this
program feeds to `int` and are not modelled.) -/
def pyIntParse (s : String) : Option Int :=
  let cs := ((s.data.dropWhile isPySpace).reverse.dropWhile isPySpace).reverse
  match cs with
  | '+' :: ds => (natDigits ds).map (fun n => (n : Int))
  | '-' :: ds => (natDigits ds).map (fun n => -(n : Int))
  | ds => (natDigits ds).map (fun n => (n : Int))

/-- Python truthiness of an `Optional[str]`: `None` and `""` are falsy. -/
def pyTruthyS : Option String → Bool
  | none => false
  | some s => s != ""

/-! ## JSON values

`json.dumps` / `json.loads` belong to the Python standard library, an
external collaborator of this repository.  They are modelled structurally:
a stored column holds the JSON value whose text `dumps` would produce, and
the parse step of a query recovers exactly that value (the documented
round-trip contract of the library).  Decoders below recover typed maps
from such values. -/

inductive JsonVal where
  | jnull : JsonVal
  | jbool : Bool → JsonVal
  | jnum : Int → JsonVal
  | jstr : String → JsonVal
  | jarr : List JsonVal → JsonVal
  | jobj : List (String × JsonVal) → JsonVal

/-- Serialization of a string-to-string map (`json.dumps` of a
`Dict[str, str]`, structurally). -/
def strMapToJson (m : List (String × String)) : JsonVal :=
  JsonVal.jobj (m.map (fun p => (p.1, JsonVal.jstr p.2)))

/-- Recover string fields from object fields, failing on any non-string
value. -/
def strFieldsOfJson : List (String × JsonVal) → Option (List (String × String))
  | [] => some []
  | (k, JsonVal.jstr v) :: rest => (strFieldsOfJson rest).map (fun r => (k, v) :: r)
  | _ :: _ => none

/-- Decode a JSON value back into a string-to-string map. -/
def jsonToStrMap : JsonVal → Option (List (String × String))
  | JsonVal.jobj fields => strFieldsOfJson fields
  | _ => none

/-- Decode a JSON value back into an open object (a `Dict[str, Any]`). -/
def jsonToObj : JsonVal → Option (List (String × JsonVal))
  | JsonVal.jobj fields => some fields
  | _ => none

/-! ## Fingerprint engine (`src/detectors/fingerprint.py`) -/

/-- The `scanner_signatures` table of `detect_tool`, in source (dict
insertion) order. -/
def scannerSignatures : List (String × List String) :=
  [("sqlmap", ["sqlmap"]),
   ("nikto", ["nikto"]),
   ("nmap", ["nmap", "libwww-perl", "python-requests"]),
   ("w3af", ["w3af"]),
   ("acunetix", ["acunetix"]),
   ("nessus", ["nessus"])]

/-- The double loop over `scanner_signatures`: first table entry one of
whose patterns occurs in `ua` wins. -/
def matchSignatures (ua : String) : Option String :=
  (scannerSignatures.find? (fun p => p.2.any (fun pat => strContains ua pat))).map
    (fun p => p.1)

/-- The path-based checks of `detect_tool` (guarded by `if path:`). -/
def pathSig : Option String → Option String
  | none => none
  | some p =>
    if p = "" then none
    else
      let lp := lowerStr p
      if strContains lp "wp-login" || strContains lp "wp-admin" then
        some "wordpress_scanner"
      else if strContains lp "phpmyadmin" then some "phpmyadmin_scanner"
      else if strContains lp "/etc/passwd" then some "file_inclusion"
      else none

/-- SQL keyword set used by the payload check of `detect_tool`. -/
def sqlKeywords : List String :=
  ["select", "union", "sleep", "benchmark", "load_file", "into outfile"]

/-- The payload-based SQL-injection check of `detect_tool` (guarded by
`if payload:`). -/
def sqlSig : Option String → Option String
  | none => none
  | some p =>
    if p = "" then none
    else if sqlKeywords.any (fun kw => strContains (lowerStr p) kw) then
      some "sql_injection"
    else none

/-- `detect_tool(headers, payload, path, request_type)` from
`src/detectors/fingerprint.py`.  Headers are a map (association list with
distinct keys); `headers.get` is exact-key lookup.  The `request_type`
argument is accepted and, as in the source, never used. -/
def detect_tool (headers : List (String × String)) (payload : Option String)
    (path : Option String) (_request_type : String) : Option String :=
  let ua0 := if headers.isEmpty then "" else lowerStr ((headers.lookup "User-Agent").getD "")
  let ua := if ua0 = "" && pyTruthyS payload then lowerStr ((payload).getD "") else ua0
  match matchSignatures ua with
  | some tool => some tool
  | none =>
    match pathSig path with
    | some tool => some tool
    | none => sqlSig payload

/-- Spec-side restatement of the `detect_tool` algorithm, written from the
words of the claim: strict precedence, case-insensitive, first match wins;
the User-Agent value (when present and nonempty) is the signature source,
else a present payload is; then path substrings; then SQL keywords in a
present payload; else nothing. -/
def detectToolClaimed (headers : List (String × String)) (payload : Option String)
    (path : Option String) (_request_type : String) : Option String :=
  let sigSource : String :=
    if !headers.isEmpty && lowerStr ((headers.lookup "User-Agent").getD "") != "" then
      lowerStr ((headers.lookup "User-Agent").getD "")
    else if pyTruthyS payload then lowerStr ((payload).getD "")
    else ""
  match matchSignatures sigSource with
  | some tool => some tool
  | none =>
    match pathSig path with
    | some tool => some tool
    | none => sqlSig payload

/-! ## Classification engine (`classify_client` in `src/detectors/fingerprint.py`)

`classify_client` parses the last five timestamps with
`datetime.fromisoformat` inside a `try`, compares the span of the parsed
instants against two seconds, and treats any parse failure as the rule not
firing.  Timestamps are the strings `datetime.utcnow().isoformat()`
produces: `YYYY-MM-DD` optionally followed by a separator and
`HH:MM[:SS[.ffffff]]`.  The parser below implements that grammar with the
range checks the `datetime` constructor enforces, and yields the instant as
microseconds on the proleptic Gregorian timeline, so that subtraction of
two parsed values agrees with `datetime` subtraction. -/

/-- Parse exactly `n` leading decimal digits, accumulating their value. -/
def parseDigitsAux : Nat → Nat → List Char → Option (Nat × List Char)
  | 0, acc, cs => some (acc, cs)
  | n + 1, acc, c :: cs =>
    if c.isDigit then parseDigitsAux n (acc * 10 + (c.toNat - 48)) cs else none
  | _ + 1, _, [] => none

/-- Expect one specific character. -/
def expectChar (c : Char) : List Char → Option (List Char)
  | d :: cs => if d = c then some cs else none
  | [] => none

/-- Gregorian leap year. -/
def isLeap (y : Nat) : Bool :=
  y % 4 = 0 && (y % 100 != 0 || y % 400 = 0)

/-- Days in a month, as validated by the `datetime` constructor. -/
def daysInMonth (y m : Nat) : Nat :=
  if m = 2 then (if isLeap y then 29 else 28)
  else if m = 4 || m = 6 || m = 9 || m = 11 then 30
  else 31

/-- Day number of a proleptic Gregorian civil date, relative to the Unix
epoch (standard era-based formula; all intermediate values are natural for
the validated range `1 ≤ y ≤ 9999`). -/
def daysFromCivil (y m d : Nat) : Int :=
  let y1 := if m ≤ 2 then y - 1 else y
  let era := y1 / 400
  let yoe := y1 % 400
  let mp := (m + 9) % 12
  let doy := (153 * mp + 2) / 5 + (d - 1)
  let doe := yoe * 365 + yoe / 4 - yoe / 100 + doy
  ((era * 146097 + doe : Nat) : Int) - 719468

/-- A validated civil instant as microseconds since the Unix epoch. -/
def civilMicros (y mo d h mi s us : Nat) : Int :=
  daysFromCivil y mo d * 86400000000 + ((h * 3600 + mi * 60 + s : Nat) : Int) * 1000000
    + (us : Int)

/-- Parse the optional time part (`HH:MM[:SS[.ffffff]]`, input must end
afterwards), returning hours, minutes, seconds, microseconds. -/
def parseTimePart (cs : List Char) : Option (Nat × Nat × Nat × Nat) := do
  let (h, cs) ← parseDigitsAux 2 0 cs
  let cs ← expectChar ':' cs
  let (mi, cs) ← parseDigitsAux 2 0 cs
  match cs with
  | [] => if h ≤ 23 && mi ≤ 59 then some (h, mi, 0, 0) else none
  | ':' :: cs => do
    let (s, cs) ← parseDigitsAux 2 0 cs
    match cs with
    | [] => if h ≤ 23 && mi ≤ 59 && s ≤ 59 then some (h, mi, s, 0) else none
    | '.' :: cs => do
      let (us, cs) ← parseDigitsAux 6 0 cs
      match cs with
      | [] => if h ≤ 23 && mi ≤ 59 && s ≤ 59 then some (h, mi, s, us) else none
      | _ => none
    | _ => none
  | _ => none

/-- `datetime.fromisoformat(t)` on the formats this program produces,
returning the instant as microseconds since the Unix epoch.  `none` models
the `ValueError` of an unparseable string. -/
def fromisoMicros (t : String) : Option Int := do
  let cs := t.data
  let (y, cs) ← parseDigitsAux 4 0 cs
  let cs ← expectChar '-' cs
  let (mo, cs) ← parseDigitsAux 2 0 cs
  let cs ← expectChar '-' cs
  let (d, cs) ← parseDigitsAux 2 0 cs
  if 1 ≤ y && 1 ≤ mo && mo ≤ 12 && 1 ≤ d && d ≤ daysInMonth y mo then
    match cs with
    | [] => some (civilMicros y mo d 0 0 0 0)
    | _ :: rest =>
      match parseTimePart rest with
      | some (h, mi, s, us) => some (civilMicros y mo d h mi s us)
      | none => none
  else none

/-- Python `max` over a nonempty list of instants (0 never used: the caller
always supplies five elements). -/
def listMax : List Int → Int
  | [] => 0
  | x :: xs => xs.foldl max x

/-- Python `min` over a nonempty list of instants. -/
def listMin : List Int → Int
  | [] => 0
  | x :: xs => xs.foldl min x

/-- Python `history[-5:]` (for any list length). -/
def lastK (k : Nat) (l : List α) : List α :=
  l.drop (l.length - k)

/-- `classify_client(history, current_tool)` from
`src/detectors/fingerprint.py`.  A history entry is the event dict
`{"timestamp": ts}` the HTTP handler appends; it is represented by the
timestamp string itself.  `(max(times) - min(times)).total_seconds() < 2`
is the microsecond comparison `span < 2000000` (exact for these
magnitudes). -/
def classify_client (history : List String) (current_tool : Option String) : String :=
  if pyTruthyS current_tool then "scanner"
  else if 5 ≤ history.length then
    match (lastK 5 history).mapM fromisoMicros with
    | some times =>
      if listMax times - listMin times < 2000000 then "bot" else "human"
    | none => "human"
  else "human"

/-! ## Event store (`src/honeypot_core/logger.py`)

`EventLogger` holds an in-memory list `self.events` and a SQLite table of
rows with an `AUTOINCREMENT` primary key.  The table is a list of rows in
insertion order together with the next id the engine will assign (SQLite
assigns `1, 2, 3, ...`).  Whether the `INSERT`/`commit` succeeds is an
explicit argument `dbOk`; on failure the raised exception propagates, so
`log_event` returns the state as it stands at that point together with a
success flag. -/

/-- The keyword arguments of one `log_event` call. -/
structure LogInput where
  service : String
  ip : String
  port : Nat
  request_type : String
  path : Option String := none
  payload : Option String := none
  headers : Option (List (String × String)) := none
  tool : Option String := none
  classification : Option String := none
  meta : Option (List (String × JsonVal)) := none

/-- The event dict built at the top of `log_event` (after the
`headers or {}` / `meta or {}` defaulting). -/
structure Event where
  timestamp : String
  service : String
  ip : String
  port : Nat
  request_type : String
  path : Option String
  payload : Option String
  headers : List (String × String)
  tool : Option String
  classification : Option String
  meta : List (String × JsonVal)

/-- One row of the `events` table.  The `headers` and `meta` columns hold
the JSON text produced by `json.dumps`, represented structurally (see the
JSON section above). -/
structure Row where
  id : Nat
  timestamp : String
  service : String
  ip : String
  port : Nat
  request_type : String
  path : Option String
  payload : Option String
  headers : JsonVal
  tool : Option String
  classification : Option String
  meta : JsonVal

/-- The mutable state of an `EventLogger`: the in-memory mirror, the
durable table in insertion order, and the next autoincrement id. -/
structure LoggerState where
  events : List Event
  db : List Row
  nextId : Nat

/-- A freshly constructed logger over an empty database. -/
def initLogger : LoggerState :=
  { events := [], db := [], nextId := 1 }

/-- The event dict `log_event` builds from its arguments. -/
def mkEvent (ts : String) (inp : LogInput) : Event :=
  { timestamp := ts, service := inp.service, ip := inp.ip, port := inp.port,
    request_type := inp.request_type, path := inp.path, payload := inp.payload,
    headers := inp.headers.getD [], tool := inp.tool,
    classification := inp.classification, meta := inp.meta.getD [] }

/-- The row the `INSERT` writes for `ev`, under autoincrement id `id`. -/
def mkRow (id : Nat) (ev : Event) : Row :=
  { id := id, timestamp := ev.timestamp, service := ev.service, ip := ev.ip,
    port := ev.port, request_type := ev.request_type, path := ev.path,
    payload := ev.payload, headers := strMapToJson ev.headers, tool := ev.tool,
    classification := ev.classification, meta := JsonVal.jobj ev.meta }

/-- `EventLogger.log_event`.  The in-memory append happens first; the
durable insert follows and may fail (`dbOk = false`), in which case the
exception propagates (`false` in the result) with the state as mutated so
far. -/
def log_event (st : LoggerState) (dbOk : Bool) (ts : String) (inp : LogInput) :
    LoggerState × Bool :=
  let ev := mkEvent ts inp
  let st1 := { st with events := st.events ++ [ev] }
  if dbOk then
    ({ st1 with db := st1.db ++ [mkRow st.nextId ev], nextId := st.nextId + 1 }, true)
  else (st1, false)

/-- Insert a row into a list kept in descending-id order. -/
def insertDescById (r : Row) : List Row → List Row
  | [] => [r]
  | x :: xs => if x.id ≤ r.id then r :: x :: xs else x :: insertDescById r xs

/-- Sort rows by descending id (the `ORDER BY id DESC` of the query; ids
are primary keys, hence distinct, so stability is immaterial). -/
def orderByIdDesc : List Row → List Row
  | [] => []
  | x :: xs => insertDescById x (orderByIdDesc xs)

/-- `EventLogger.query_events(limit)`: the most recent `limit` rows,
ordered by descending id.  The JSON parse step applied to the `headers`
and `meta` columns recovers the stored values (round trip of the `json`
library); decoding them back to maps is `jsonToStrMap` / `jsonToObj`. -/
def query_events (st : LoggerState) (limit : Nat) : List Row :=
  (orderByIdDesc st.db).take limit

/-! ## HTTP handler (`src/honeypot_core/http_honeypot.py`)

A connection is the list of lines `readline` will deliver (each without
trailing newline removed, exactly as received; an exhausted list means
EOF, mirrored also by an explicit `""` element, since `readline` yields
empty bytes only at EOF) plus the raw characters available to
`readexactly` after the header section.  The synthesized response writes
to the socket only and is irrelevant to the logged event, so the model
returns the history table and the `log_event` call (if any). -/

/-- The stream a single HTTP session reads. -/
structure HttpInput where
  lines : List String
  rest : List Char

/-- A parsed request: `(method, path, headers, body)`. -/
structure HttpReq where
  method : String
  path : String
  headers : List (String × String)
  body : Option String

/-- Python dict assignment `headers[k] = v`: replace the value in place if
the key exists, else append. -/
def setHeader : List (String × String) → String → String → List (String × String)
  | [], k, v => [(k, v)]
  | (k0, v0) :: rest, k, v =>
    if k0 = k then (k0, v) :: rest else (k0, v0) :: setHeader rest k v

/-- The header loop: read lines until EOF or a blank line; store each
`key: value` line stripped on both sides; ignore lines without a colon. -/
def readHeaderLines : List String → List (String × String) → List (String × String)
  | [], acc => acc
  | l :: ls, acc =>
    if l = "" then acc
    else
      let s := pyStrip l
      if s = "" then acc
      else
        match breakAtChar ':' s.data with
        | (key, some value) =>
          readHeaderLines ls (setHeader acc (pyStrip (String.mk key)) (pyStrip (String.mk value)))
        | (_, none) => readHeaderLines ls acc

/-- The body step of `_read_http_request`: if a truthy `Content-Length`
header parses as an integer and exactly that many bytes can be read, they
are the body; any failure (unparseable value, negative length, short
stream) leaves the body `None`. -/
def readBody (headers : List (String × String)) (rest : List Char) : Option String :=
  match headers.lookup "Content-Length" with
  | none => none
  | some cl =>
    if cl = "" then none
    else
      match pyIntParse cl with
      | none => none
      | some n =>
        if n < 0 then none
        else if n.toNat ≤ rest.length then some (String.mk (rest.take n.toNat))
        else none

/-- `AsyncHTTPHoneypot._read_http_request`: request line, header loop,
optional body.  `none` is the abort path (EOF, or a request line with
fewer than two whitespace-separated parts). -/
def readHttpRequest (inp : HttpInput) : Option HttpReq :=
  match inp.lines with
  | [] => none
  | l :: ls =>
    if l = "" then none
    else
      let parts := pySplitWs (pyStrip l)
      if parts.length < 2 then none
      else
        let headers := readHeaderLines ls []
        some { method := parts.getD 0 "", path := parts.getD 1 "",
               headers := headers, body := readBody headers inp.rest }

/-- Update the per-IP history table at one key, preserving all others
(Python dict update through the alias returned by `setdefault`). -/
def updateHistory : List (String × List String) → String → List String →
    List (String × List String)
  | [], ip, h => [(ip, h)]
  | (k, v) :: rest, ip, h =>
    if k = ip then (k, h) :: rest else (k, v) :: updateHistory rest ip h

/-- `AsyncHTTPHoneypot.handle_client` up to the response write: parse the
request (aborting silently on failure), fingerprint, append the current
timestamp to this IP's history, classify on the updated history, and emit
one `log_event` call.  Returns the updated history table and the emitted
call, if any. -/
def httpHandle (hist : List (String × List String)) (ip : String) (port : Nat)
    (ts : String) (inp : HttpInput) :
    List (String × List String) × Option LogInput :=
  match readHttpRequest inp with
  | none => (hist, none)
  | some req =>
    let tool := detect_tool req.headers req.body (some req.path) req.method
    let newHist := ((hist.lookup ip).getD []) ++ [ts]
    let classification := classify_client newHist tool
    (updateHistory hist ip newHist,
     some { service := "http", ip := ip, port := port, request_type := req.method,
            path := some req.path, payload := req.body, headers := some req.headers,
            tool := tool, classification := some classification, meta := some [] })

/-! ## SSH handler (`src/honeypot_core/ssh_honeypot.py`)

The handler speaks plain text: a banner, then up to three
username/password rounds.  `_read_line` yields the next line stripped of
CR/LF, or EOF when the peer has no more lines (an exhausted input list).
Messages written to the socket are represented by constructors; the
comments give the literal bytes. -/

inductive SshMsg where
  /-- `SSH-2.0-OpenSSH_7.4p1 Debian-10+deb9u6\r\n` -/
  | banner : SshMsg
  /-- `login as: ` -/
  | promptLogin : SshMsg
  /-- the password prompt naming the just-read username -/
  | promptPassword : String → SshMsg
  /-- `Permission denied, please try again.\r\n` -/
  | denyRetry : SshMsg
  /-- `Permission denied (publickey,password).\r\n` -/
  | denyFinal : SshMsg
deriving DecidableEq

/-- The `log_event` call one completed SSH round makes, given the attempt
count after the increment. -/
def sshEvent (ip : String) (port : Nat) (username password : String)
    (attempts : Nat) : LogInput :=
  { service := "ssh", ip := ip, port := port, request_type := "LOGIN",
    path := some username, payload := some password,
    headers := some [("banner", "OpenSSH_7.4p1")],
    tool := detect_tool [] none none "SSH",
    classification := some (if 1 < attempts then "bot" else "unknown"),
    meta := some [] }

/-- The `while attempts < 3` loop of `AsyncSSHHoneypot.handle_client`,
returning the emitted `log_event` calls and the messages written after the
banner. -/
def sshLoop (ip : String) (port : Nat) (attempts : Nat) (inp : List String) :
    List LogInput × List SshMsg :=
  if attempts < 3 then
    match inp with
    | [] => ([], [SshMsg.promptLogin])
    | u :: inp1 =>
      let username := stripCRLF u
      match inp1 with
      | [] => ([], [SshMsg.promptLogin, SshMsg.promptPassword username])
      | p :: inp2 =>
        let password := stripCRLF p
        let ev := sshEvent ip port username password (attempts + 1)
        if 3 ≤ attempts + 1 then
          ([ev], [SshMsg.promptLogin, SshMsg.promptPassword username, SshMsg.denyFinal])
        else
          let r := sshLoop ip port (attempts + 1) inp2
          (ev :: r.1,
           SshMsg.promptLogin :: SshMsg.promptPassword username :: SshMsg.denyRetry :: r.2)
  else ([], [])
termination_by 3 - attempts

/-- `AsyncSSHHoneypot.handle_client`: banner, then the login loop. -/
def sshSession (ip : String) (port : Nat) (inp : List String) :
    List LogInput × List SshMsg :=
  let r := sshLoop ip port 0 inp
  (r.1, SshMsg.banner :: r.2)

/-- Consecutive (username, password) line pairs of a connection, both
stripped of CR/LF; a dangling unpaired line (EOF at the password prompt)
yields no pair. -/
def sshPairs : List String → List (String × String)
  | u :: p :: rest => (stripCRLF u, stripCRLF p) :: sshPairs rest
  | _ => []

/-- Spec-side description of the SSH events, from the words of the claim:
one event per completed round, at most three rounds, request_type LOGIN,
path the username, payload the password, classification bot once the
attempt count exceeds one. -/
def sshSpecEvents (ip : String) (port : Nat) (inp : List String) : List LogInput :=
  ((sshPairs inp).take 3).mapIdx (fun i up => sshEvent ip port up.1 up.2 (i + 1))

/-! ## FTP handler (`src/honeypot_core/ftp_honeypot.py`)

One command per line; empty (stripped) lines are skipped.  Replies are
represented by constructors carrying their numeric codes; the comments
give the literal lines. -/

inductive FtpReply where
  /-- `220 (vsFTPd 3.0.3)\r\n` -/
  | r220 : FtpReply
  /-- `331 Please specify the password.\r\n` -/
  | r331 : FtpReply
  /-- `530 Login incorrect.\r\n` -/
  | r530 : FtpReply
  /-- `257 "/" is the current directory\r\n` -/
  | r257 : FtpReply
  /-- `150 Here comes the directory listing.\r\n` -/
  | r150 : FtpReply
  /-- the fixed two-line directory listing -/
  | listing : FtpReply
  /-- `226 Directory send OK.\r\n` -/
  | r226 : FtpReply
  /-- `221 Goodbye.\r\n` -/
  | r221 : FtpReply
  /-- `502 Command not implemented.\r\n` -/
  | r502 : FtpReply
deriving DecidableEq

/-- The verb of a stripped command line: the part before the first space,
uppercased. -/
def ftpVerb (line : String) : String :=
  upperStr (String.mk (breakAtChar ' ' line.data).1)

/-- The argument of a stripped command line: the part after the first
space, or `""` when there is none. -/
def ftpArg (line : String) : String :=
  match (breakAtChar ' ' line.data).2 with
  | some cs => String.mk cs
  | none => ""

/-- The `log_event` call for one nonempty FTP command line (already
stripped). -/
def ftpEvent (ip : String) (port : Nat) (line : String) : LogInput :=
  let cmd := ftpVerb line
  { service := "ftp", ip := ip, port := port, request_type := cmd,
    path := some (ftpArg line), payload := none, headers := some [],
    tool := detect_tool [] none none cmd,
    classification :=
      some (if cmd = "USER" || cmd = "PASS" || cmd = "LIST" then "bot" else "unknown"),
    meta := some [] }

/-- The replies the dispatch writes for one command. -/
def ftpReplies (cmd : String) : List FtpReply :=
  if cmd = "USER" then [FtpReply.r331]
  else if cmd = "PASS" then [FtpReply.r530]
  else if cmd = "PWD" then [FtpReply.r257]
  else if cmd = "LIST" then [FtpReply.r150, FtpReply.listing, FtpReply.r226]
  else if cmd = "QUIT" then [FtpReply.r221]
  else [FtpReply.r502]

/-- The command loop of `AsyncFTPHoneypot.handle_client`: skip empty
lines, log every other line, dispatch the verb, stop on QUIT or EOF.
Returns the emitted `log_event` calls and the replies after the greeting.
(The `username = arg` assignment of the USER branch is dead state: the
variable is never read.) -/
def ftpLoop (ip : String) (port : Nat) : List String → List LogInput × List FtpReply
  | [] => ([], [])
  | l :: rest =>
    let line := pyStrip l
    if line = "" then ftpLoop ip port rest
    else
      let cmd := ftpVerb line
      let ev := ftpEvent ip port line
      if cmd = "QUIT" then ([ev], ftpReplies cmd)
      else
        let r := ftpLoop ip port rest
        (ev :: r.1, ftpReplies cmd ++ r.2)

/-- `AsyncFTPHoneypot.handle_client`: greeting, then the command loop. -/
def ftpSession (ip : String) (port : Nat) (inp : List String) :
    List LogInput × List FtpReply :=
  let r := ftpLoop ip port inp
  (r.1, FtpReply.r220 :: r.2)

/-- Spec-side description of which lines produce FTP events: the stripped
nonempty lines up to and including the first whose verb is QUIT. -/
def ftpSpecLines : List String → List String
  | [] => []
  | l :: rest =>
    let s := pyStrip l
    if s = "" then ftpSpecLines rest
    else if ftpVerb s = "QUIT" then [s]
    else s :: ftpSpecLines rest

/-! ## Shared lemmas -/

/-- Decoding inverts the structural serialization of a string map. -/
theorem strFieldsOfJson_map (m : List (String × String)) :
    strFieldsOfJson (m.map (fun p => (p.1, JsonVal.jstr p.2))) = some m := by
  induction m with
  | nil => rfl
  | cons p rest ih => simp [strFieldsOfJson, ih]

/-- `jsonToStrMap` inverts `strMapToJson`. -/
theorem jsonToStrMap_strMapToJson (m : List (String × String)) :
    jsonToStrMap (strMapToJson m) = some m := by
  simp [jsonToStrMap, strMapToJson, strFieldsOfJson_map]

/-- Well-formedness of a logger state: rows are stored in strictly
increasing id order and every stored id is below the autoincrement
counter. -/
def LoggerWF (st : LoggerState) : Prop :=
  st.db.Pairwise (fun a b => a.id < b.id) ∧ ∀ r ∈ st.db, r.id < st.nextId

theorem loggerWF_init : LoggerWF initLogger := by
  constructor
  · exact List.Pairwise.nil
  · intro r hr
    simp [initLogger] at hr

/-- Inserting a row whose id is below everything in the list lands at the
end. -/
theorem insertDescById_of_lt (r : Row) (l : List Row)
    (h : ∀ x ∈ l, r.id < x.id) : insertDescById r l = l ++ [r] := by
  induction l with
  | nil => rfl
  | cons x xs ih =>
    have hx : r.id < x.id := h x (by simp)
    simp only [insertDescById, if_neg (by omega : ¬ x.id ≤ r.id)]
    rw [ih (fun y hy => h y (by simp [hy]))]
    simp

/-- On a table stored in strictly increasing id order, `ORDER BY id DESC`
is reversal. -/
theorem orderByIdDesc_eq_reverse (l : List Row)
    (h : l.Pairwise (fun a b => a.id < b.id)) : orderByIdDesc l = l.reverse := by
  induction l with
  | nil => rfl
  | cons x xs ih =>
    rcases List.pairwise_cons.mp h with ⟨hx, hxs⟩
    simp only [orderByIdDesc, ih hxs]
    rw [insertDescById_of_lt x xs.reverse (fun y hy => hx y (List.mem_reverse.mp hy))]
    simp

/-- A successful `log_event` preserves logger well-formedness. -/
theorem log_event_true_wf (st : LoggerState) (ts : String) (inp : LogInput)
    (hwf : LoggerWF st) : LoggerWF (log_event st true ts inp).1 := by
  rcases hwf with ⟨hpw, hlt⟩
  constructor
  · simp only [log_event, if_pos]
    rw [List.pairwise_append]
    refine ⟨hpw, by simp, ?_⟩
    intro a ha b hb
    simp at hb
    subst hb
    exact hlt a ha
  · intro r hr
    simp only [log_event, if_pos] at hr ⊢
    rcases List.mem_append.mp hr with h | h
    · exact Nat.lt_succ_of_lt (hlt r h)
    · simp at h
      subst h
      simp [mkRow]

/-! ## Claim C2 -/

/-- C2: every event appended through `log_event` is returned by a
subsequent `query_events` with sufficient limit, as the newest entry, with
every field equal to the appended one (the headers and meta maps decoding
back to the appended maps through the JSON columns) except the assigned
id; the new id exceeds every previously stored id, ids are assigned
strictly increasing in append order (a second append, even with an
identical timestamp, gets the next id), and the query returns the most
recent rows newest first in strictly descending id order. -/
theorem logger_roundtrip_c2 (st : LoggerState) (ts ts2 : String)
    (inp inp2 : LogInput) (limit : Nat) (hwf : LoggerWF st)
    (hlim : st.db.length < limit) :
    LoggerWF (log_event st true ts inp).1 ∧
    (∀ r ∈ st.db, r.id < st.nextId) ∧
    (query_events (log_event st true ts inp).1 limit).head? =
      some (mkRow st.nextId (mkEvent ts inp)) ∧
    jsonToStrMap (mkRow st.nextId (mkEvent ts inp)).headers =
      some (inp.headers.getD []) ∧
    jsonToObj (mkRow st.nextId (mkEvent ts inp)).meta = some (inp.meta.getD []) ∧
    query_events (log_event st true ts inp).1 limit =
      ((log_event st true ts inp).1.db).reverse.take limit ∧
    ((query_events (log_event st true ts inp).1 limit).Pairwise
      (fun a b => b.id < a.id)) ∧
    ((log_event ((log_event st true ts inp).1) true ts2 inp2).1.db.getLast?).map
      Row.id = some (st.nextId + 1) := by
  have hwf' := log_event_true_wf st ts inp hwf
  have hdb : (log_event st true ts inp).1.db =
      st.db ++ [mkRow st.nextId (mkEvent ts inp)] := by
    simp [log_event]
  have hq : query_events (log_event st true ts inp).1 limit =
      ((log_event st true ts inp).1.db).reverse.take limit := by
    unfold query_events
    rw [orderByIdDesc_eq_reverse _ hwf'.1]
  refine ⟨hwf', hwf.2, ?_, ?_, ?_, hq, ?_, ?_⟩
  · rw [hq, hdb]
    rcases limit with _ | k
    · omega
    · simp
  · simp [mkRow, mkEvent, jsonToStrMap_strMapToJson]
  · simp [mkRow, mkEvent, jsonToObj]
  · rw [hq]
    have hrev : ((log_event st true ts inp).1.db).reverse.Pairwise
        (fun a b => b.id < a.id) := List.pairwise_reverse.mpr hwf'.1
    exact hrev.sublist (List.take_sublist _ _)
  · have : (log_event ((log_event st true ts inp).1) true ts2 inp2).1.db =
        (log_event st true ts inp).1.db ++
          [mkRow ((log_event st true ts inp).1.nextId) (mkEvent ts2 inp2)] := by
      simp [log_event]
    rw [this, List.getLast?_concat]
    simp [log_event, mkRow]

/-- Concrete instantiation of `logger_roundtrip_c2` on an empty logger:
one append with a headers map and a meta map, queried back with limit 1. -/
theorem logger_roundtrip_c2_witness :
    LoggerWF initLogger ∧ initLogger.db.length < 1 ∧
    (query_events (log_event initLogger true "2024-05-01T12:00:00.000000"
        { service := "http", ip := "8.8.8.8", port := 8080, request_type := "GET",
          path := some "/", headers := some [("Host", "x")],
          meta := some [("k", JsonVal.jstr "v")] }).1 1).head? =
      some (mkRow 1 (mkEvent "2024-05-01T12:00:00.000000"
        { service := "http", ip := "8.8.8.8", port := 8080, request_type := "GET",
          path := some "/", headers := some [("Host", "x")],
          meta := some [("k", JsonVal.jstr "v")] })) :=
  ⟨loggerWF_init, by decide,
   (logger_roundtrip_c2 initLogger "2024-05-01T12:00:00.000000"
      "2024-05-01T12:00:00.000000"
      { service := "http", ip := "8.8.8.8", port := 8080, request_type := "GET",
        path := some "/", headers := some [("Host", "x")],
        meta := some [("k", JsonVal.jstr "v")] }
      { service := "http", ip := "8.8.8.8", port := 8080, request_type := "GET" }
      1 loggerWF_init (by decide)).2.2.1⟩

/-! ## Claim C1 -/

/-- C1 counterexample: on a failed durable insert the in-memory mirror is
not left unchanged — `log_event` appends to it before attempting the
insert, so after a failing call on a fresh logger the mirror differs from
what it was. -/
theorem logger_mirror_changed_c1_cex :
    ¬ ((log_event initLogger false "2024-05-01T12:00:00.000000"
        { service := "http", ip := "8.8.8.8", port := 8080,
          request_type := "GET" }).1.events = initLogger.events) := by
  intro h
  have hlen := congrArg List.length h
  simp [log_event, initLogger] at hlen

/-- C1 amended: when the durable insert fails, `log_event` signals the
error with the in-memory mirror already extended by the event (the append
precedes the insert), but the durable table is unchanged — and since
`query_events` reads only the durable table, no query ever observes an
event whose durable write failed; on the success path the row is appended
durably, so no query misses an event that succeeded. -/
theorem logger_fail_path_c1 (st : LoggerState) (ts : String) (inp : LogInput)
    (limit : Nat) :
    (log_event st false ts inp).2 = false ∧
    (log_event st false ts inp).1.events = st.events ++ [mkEvent ts inp] ∧
    (log_event st false ts inp).1.db = st.db ∧
    query_events (log_event st false ts inp).1 limit = query_events st limit ∧
    (log_event st true ts inp).1.db =
      st.db ++ [mkRow st.nextId (mkEvent ts inp)] := by
  refine ⟨rfl, by simp [log_event], rfl, rfl, by simp [log_event]⟩
/-! ## Claim C3 -/

/-- C3: `classify_client` applies its rules in order — a truthy detected
tool yields scanner regardless of history; otherwise with at least five
entries whose last five timestamps all parse and span strictly less than
two seconds it yields bot; a span of two seconds or more yields human, as
does any parse failure among the last five (never fatal), and any history
shorter than five entries. -/
theorem classify_rules_c3 :
    (∀ h t, pyTruthyS t = true → classify_client h t = "scanner") ∧
    (∀ h t ms, pyTruthyS t = false → 5 ≤ h.length →
      (lastK 5 h).mapM fromisoMicros = some ms →
      listMax ms - listMin ms < 2000000 → classify_client h t = "bot") ∧
    (∀ h t ms, pyTruthyS t = false →
      (lastK 5 h).mapM fromisoMicros = some ms →
      2000000 ≤ listMax ms - listMin ms → classify_client h t = "human") ∧
    (∀ h t, pyTruthyS t = false → (lastK 5 h).mapM fromisoMicros = none →
      classify_client h t = "human") ∧
    (∀ h t, pyTruthyS t = false → h.length < 5 → classify_client h t = "human") := by
  refine ⟨?_, ?_, ?_, ?_, ?_⟩
  · intro h t ht
    simp [classify_client, ht]
  · intro h t ms ht h5 hms hspan
    unfold classify_client
    rw [hms]
    simp [ht, h5, hspan]
  · intro h t ms ht hms hspan
    by_cases h5 : 5 ≤ h.length
    · have hnot : ¬ (listMax ms - listMin ms < 2000000) := by omega
      unfold classify_client
      rw [hms]
      simp [ht, h5, hnot]
    · unfold classify_client
      simp [ht, h5]
  · intro h t ht hms
    by_cases h5 : 5 ≤ h.length
    · unfold classify_client
      rw [hms]
      simp [ht, h5]
    · unfold classify_client
      simp [ht, h5]
  · intro h t ht h5
    have hnot : ¬ (5 ≤ h.length) := by omega
    unfold classify_client
    simp [ht, hnot]

/-- Concrete instantiation of every rule of `classify_rules_c3`: a tool
always wins; five timestamps spanning 1.9 seconds classify bot; the same
prefix ending 2.0 seconds after the first classifies human; an
unparseable timestamp among the last five classifies human; a short
history classifies human. -/
theorem classify_rules_c3_witness :
    classify_client ["x"] (some "sqlmap") = "scanner" ∧
    classify_client ["2024-01-01T00:00:00.000000", "2024-01-01T00:00:00.100000",
      "2024-01-01T00:00:00.200000", "2024-01-01T00:00:00.300000",
      "2024-01-01T00:00:01.900000"] none = "bot" ∧
    classify_client ["2024-01-01T00:00:00.000000", "2024-01-01T00:00:00.100000",
      "2024-01-01T00:00:00.200000", "2024-01-01T00:00:00.300000",
      "2024-01-01T00:00:02.000000"] none = "human" ∧
    classify_client ["2024-01-01T00:00:00.000000", "2024-01-01T00:00:00.100000",
      "2024-01-01T00:00:00.200000", "2024-01-01T00:00:00.300000",
      "not-a-timestamp"] none = "human" ∧
    classify_client ["2024-01-01T00:00:00.000000"] none = "human" :=
  ⟨classify_rules_c3.1 ["x"] (some "sqlmap") (by decide),
   classify_rules_c3.2.1 _ none
     [1704067200000000, 1704067200100000, 1704067200200000, 1704067200300000,
      1704067201900000] (by decide) (by decide) (by decide) (by decide),
   classify_rules_c3.2.2.1 _ none
     [1704067200000000, 1704067200100000, 1704067200200000, 1704067200300000,
      1704067202000000] (by decide) (by decide) (by decide),
   classify_rules_c3.2.2.2.1 _ none (by decide) (by decide),
   classify_rules_c3.2.2.2.2 _ none (by decide) (by decide)⟩

/-! ## Claim C4 -/

/-- C4: `detect_tool` follows the claimed strict precedence
(case-insensitive, first match wins): a present nonempty User-Agent value
is the signature source for the substring table, else a present payload
is; then path substrings, then SQL keywords in a present payload, else
nothing — and whenever the User-Agent value contains `sqlmap`
(case-insensitively), the result is `sqlmap`. -/
theorem detect_tool_precedence_c4 :
    (∀ headers payload path rt,
      detect_tool headers payload path rt = detectToolClaimed headers payload path rt) ∧
    (∀ headers payload path rt v, List.lookup "User-Agent" headers = some v →
      strContains (lowerStr v) "sqlmap" = true →
      detect_tool headers payload path rt = some "sqlmap") := by
  constructor
  · intro headers payload path rt
    unfold detect_tool detectToolClaimed
    by_cases hh : headers.isEmpty
    · simp only [hh, if_pos]
      by_cases hp : pyTruthyS payload <;> simp [hp]
    · simp only [hh, Bool.false_eq_true, if_neg, Bool.not_false, Bool.true_and]
      by_cases hu : lowerStr ((List.lookup "User-Agent" headers).getD "") = ""
      · simp [hu]
      · simp [hu]
  · intro headers payload path rt v hv hcontains
    have hne : headers ≠ [] := by
      intro h
      subst h
      simp [List.lookup] at hv
    have hh : headers.isEmpty = false := by
      cases headers with
      | nil => exact absurd rfl hne
      | cons a l => rfl
    have hu : lowerStr ((List.lookup "User-Agent" headers).getD "") = lowerStr v := by
      rw [hv]
      rfl
    have hune : lowerStr v ≠ "" := by
      intro h
      rw [h] at hcontains
      simp [strContains, hasInfixList, List.isEmpty] at hcontains
    have hmatch : matchSignatures (lowerStr v) = some "sqlmap" := by
      unfold matchSignatures scannerSignatures
      rw [List.find?]
      simp [hcontains]
    unfold detect_tool
    simp [hh, hu, hune, hmatch]

/-- Concrete instantiation of the sqlmap conjunct of
`detect_tool_precedence_c4`: a request whose User-Agent is
`Mozilla SQLMap/1.5` maps to `sqlmap`. -/
theorem detect_tool_precedence_c4_witness :
    detect_tool [("User-Agent", "Mozilla SQLMap/1.5")] none (some "/index.php") "GET" =
      some "sqlmap" :=
  detect_tool_precedence_c4.2 [("User-Agent", "Mozilla SQLMap/1.5")] none
    (some "/index.php") "GET" "Mozilla SQLMap/1.5" (by decide) (by decide)

/-! ## Claim C9 -/

/-- C9: `detect_tool` never depends on its `request_type` argument, and in
particular the fingerprint calls the SSH and FTP handlers make — empty
headers, no payload, no path — always yield no detected tool, so every
SSH and FTP event carries `tool = None`. -/
theorem detect_tool_rt_independent_c9 :
    (∀ headers payload path rt1 rt2,
      detect_tool headers payload path rt1 = detect_tool headers payload path rt2) ∧
    (∀ rt, detect_tool [] none none rt = none) ∧
    (∀ ip port u p a, (sshEvent ip port u p a).tool = none) ∧
    (∀ ip port line, (ftpEvent ip port line).tool = none) := by
  refine ⟨fun _ _ _ _ _ => rfl, fun _ => rfl, fun _ _ _ _ _ => rfl, fun _ _ _ => rfl⟩
/-! ## Claim C5 -/

/-- C5: the HTTP handler emits an event exactly when the request parses —
on EOF or a request line with fewer than two whitespace-separated parts
the session is dropped with the history untouched and no event, and every
successfully parsed request emits exactly one event whose `meta` is the
empty map. -/
theorem http_event_iff_parse_c5 (hist : List (String × List String)) (ip : String)
    (port : Nat) (ts : String) (inp : HttpInput) :
    ((httpHandle hist ip port ts inp).2.isSome ↔ (readHttpRequest inp).isSome) ∧
    (readHttpRequest inp = none → httpHandle hist ip port ts inp = (hist, none)) ∧
    (∀ l ls, inp.lines = l :: ls → l ≠ "" → (pySplitWs (pyStrip l)).length < 2 →
      httpHandle hist ip port ts inp = (hist, none)) ∧
    (∀ ev, (httpHandle hist ip port ts inp).2 = some ev → ev.meta = some []) := by
  refine ⟨?_, ?_, ?_, ?_⟩
  · cases h : readHttpRequest inp <;> simp [httpHandle, h]
  · intro h
    simp [httpHandle, h]
  · intro l ls hl hne hlen
    have hparse : readHttpRequest inp = none := by
      unfold readHttpRequest
      rw [hl]
      simp [hne, hlen]
    simp [httpHandle, hparse]
  · intro ev hev
    cases h : readHttpRequest inp with
    | none => simp [httpHandle, h] at hev
    | some req =>
      simp [httpHandle, h] at hev
      rw [← hev]

/-- Concrete instantiation of `http_event_iff_parse_c5`: a one-word
request line aborts with no event and untouched history, and a well-formed
request emits one event with empty meta. -/
theorem http_event_iff_parse_c5_witness :
    httpHandle [("7.7.7.7", ["t0"])] "7.7.7.7" 8080 "t1" ⟨["GET\r\n"], []⟩ =
      ([("7.7.7.7", ["t0"])], none) ∧
    ((httpHandle [] "7.7.7.7" 8080 "t1"
        ⟨["GET / HTTP/1.1\r\n", "\r\n"], []⟩).2.map (fun e => e.meta)) = some (some []) := by
  constructor
  · exact (http_event_iff_parse_c5 [("7.7.7.7", ["t0"])] "7.7.7.7" 8080 "t1"
      ⟨["GET\r\n"], []⟩).2.2.1 "GET\r\n" [] rfl (by decide) (by decide)
  · have hsome : ((httpHandle [] "7.7.7.7" 8080 "t1"
        ⟨["GET / HTTP/1.1\r\n", "\r\n"], []⟩).2).isSome :=
      (http_event_iff_parse_c5 [] "7.7.7.7" 8080 "t1"
        ⟨["GET / HTTP/1.1\r\n", "\r\n"], []⟩).1.mpr (by decide)
    rcases Option.isSome_iff_exists.mp hsome with ⟨ev, hev⟩
    rw [hev]
    simp [(http_event_iff_parse_c5 [] "7.7.7.7" 8080 "t1"
      ⟨["GET / HTTP/1.1\r\n", "\r\n"], []⟩).2.2.2 ev hev]

/-! ## Claim C6 -/

/-- C6: when the Content-Length header parses as an integer and the
stream holds enough bytes, exactly that many bytes become the body; any
parse failure, negative length, or short read leaves the body absent; and
a request whose request line parsed never aborts because of the body. -/
theorem http_body_c6 (headers : List (String × String)) (rest : List Char) :
    (∀ cl n, headers.lookup "Content-Length" = some cl → pyIntParse cl = some n →
      0 ≤ n → n.toNat ≤ rest.length →
      readBody headers rest = some (String.mk (rest.take n.toNat)) ∧
      (rest.take n.toNat).length = n.toNat) ∧
    (∀ cl, headers.lookup "Content-Length" = some cl → pyIntParse cl = none →
      readBody headers rest = none) ∧
    (∀ cl n, headers.lookup "Content-Length" = some cl → pyIntParse cl = some n →
      (n < 0 ∨ rest.length < n.toNat) → readBody headers rest = none) ∧
    (∀ l ls, l ≠ "" → 2 ≤ (pySplitWs (pyStrip l)).length →
      (readHttpRequest ⟨l :: ls, rest⟩).isSome = true) := by
  have hclne : ∀ n : Int, pyIntParse "" = some n → False := by
    intro n h
    simp [pyIntParse, natDigits] at h
  refine ⟨?_, ?_, ?_, ?_⟩
  · intro cl n hcl hn hpos hlen
    by_cases hemp : cl = ""
    · subst hemp
      exact absurd hn (fun h => hclne n h)
    · have h1 : ¬ n < 0 := by omega
      constructor
      · simp [readBody, hcl, hemp, hn, h1, hlen]
      · simp [List.length_take]
        omega
  · intro cl hcl hn
    by_cases hemp : cl = ""
    · simp [readBody, hcl, hemp]
    · simp [readBody, hcl, hemp, hn]
  · intro cl n hcl hn hfail
    by_cases hemp : cl = ""
    · subst hemp
      exact absurd hn (fun h => hclne n h)
    · rcases hfail with hneg | hshort
      · simp [readBody, hcl, hemp, hn, hneg]
      · by_cases hneg : n < 0
        · simp [readBody, hcl, hemp, hn, hneg]
        · have h2 : ¬ n.toNat ≤ rest.length := by omega
          simp [readBody, hcl, hemp, hn, hneg, h2]
  · intro l ls hne hlen
    have h2 : ¬ (pySplitWs (pyStrip l)).length < 2 := by omega
    unfold readHttpRequest
    simp [hne, h2]

/-- Concrete instantiation of `http_body_c6`: `Content-Length: 5` over the
bytes `hello world` reads exactly `hello`; an unparseable length and a
short stream leave the body absent; the request still parses. -/
theorem http_body_c6_witness :
    readBody [("Content-Length", "5")] "hello world".data = some "hello" ∧
    readBody [("Content-Length", "zzz")] "hello".data = none ∧
    readBody [("Content-Length", "50")] "hello".data = none ∧
    (readHttpRequest ⟨["POST /x HTTP/1.1", "Content-Length: zzz", ""],
      "hello".data⟩).isSome = true := by
  refine ⟨?_, ?_, ?_, ?_⟩
  · exact ((http_body_c6 [("Content-Length", "5")] "hello world".data).1 "5" 5
      (by decide) (by decide) (by decide) (by decide)).1
  · exact (http_body_c6 [("Content-Length", "zzz")] "hello".data).2.1 "zzz"
      (by decide) (by decide)
  · exact (http_body_c6 [("Content-Length", "50")] "hello".data).2.2.1 "50" 50
      (by decide) (by decide) (Or.inr (by decide))
  · exact (http_body_c6 [] "hello".data).2.2.2 "POST /x HTTP/1.1"
      ["Content-Length: zzz", ""] (by decide) (by decide)

/-! ## Claim C10 -/

/-- Updating one key of the history table makes its lookup return the new
value. -/
theorem updateHistory_lookup_self (l : List (String × List String)) (ip : String)
    (h : List String) : (updateHistory l ip h).lookup ip = some h := by
  induction l with
  | nil => simp [updateHistory, List.lookup]
  | cons p rest ih =>
    by_cases hk : p.1 = ip
    · simp [updateHistory, hk, List.lookup]
    · have hbeq : (ip == p.1) = false := beq_eq_false_iff_ne.mpr (fun he => hk he.symm)
      simp [updateHistory, hk, List.lookup, hbeq, ih]

/-- Updating one key of the history table leaves every other key's lookup
unchanged. -/
theorem updateHistory_lookup_other (l : List (String × List String)) (ip ip2 : String)
    (h : List String) (hne : ip2 ≠ ip) :
    (updateHistory l ip h).lookup ip2 = l.lookup ip2 := by
  have hbne : (ip2 == ip) = false := beq_eq_false_iff_ne.mpr hne
  induction l with
  | nil => simp [updateHistory, List.lookup, hbne]
  | cons p rest ih =>
    by_cases hk : p.1 = ip
    · by_cases hk2 : ip2 = p.1
      · exact absurd (hk2.trans hk) hne
      · have hbk : (ip2 == p.1) = false := beq_eq_false_iff_ne.mpr hk2
        simp [updateHistory, hk, List.lookup, hbk, hbne]
    · by_cases hk2 : ip2 = p.1
      · simp [updateHistory, hk, List.lookup, hk2]
      · have hbk : (ip2 == p.1) = false := beq_eq_false_iff_ne.mpr hk2
        simp [updateHistory, hk, List.lookup, hbk, ih]

/-- `history[-5:]` keeps at most five entries. -/
theorem lastK_length_le (k : Nat) (l : List α) : (lastK k l).length ≤ k := by
  simp [lastK, List.length_drop]
  omega

/-- Taking the last five of the last five changes nothing. -/
theorem lastK_lastK (l : List α) : lastK 5 (lastK 5 l) = lastK 5 l := by
  have h0 : (lastK 5 l).length - 5 = 0 := by
    have := lastK_length_le 5 l
    omega
  show (lastK 5 l).drop ((lastK 5 l).length - 5) = lastK 5 l
  rw [h0]
  simp

/-- C10: `classify_client` reads only the last five history entries and
mutates nothing — the whole history update is done at the HTTP call site:
an aborted parse leaves the table untouched, a parsed request appends
exactly the current timestamp to the client's entry while every other
client's entry is unchanged, and the classification recorded in the event
is computed on that already-appended history. -/
theorem http_history_c10 (hist : List (String × List String)) (ip ip2 : String)
    (port : Nat) (ts : String) (inp : HttpInput) (h : List String)
    (t : Option String) :
    (classify_client h t = classify_client (lastK 5 h) t) ∧
    (readHttpRequest inp = none → (httpHandle hist ip port ts inp).1 = hist) ∧
    ((readHttpRequest inp).isSome →
      ((httpHandle hist ip port ts inp).1.lookup ip =
          some (((hist.lookup ip).getD []) ++ [ts]) ∧
        (ip2 ≠ ip →
          (httpHandle hist ip port ts inp).1.lookup ip2 = hist.lookup ip2))) ∧
    (∀ req, readHttpRequest inp = some req →
      (httpHandle hist ip port ts inp).2 =
        some { service := "http", ip := ip, port := port, request_type := req.method,
               path := some req.path, payload := req.body, headers := some req.headers,
               tool := detect_tool req.headers req.body (some req.path) req.method,
               classification := some (classify_client (((hist.lookup ip).getD []) ++ [ts])
                 (detect_tool req.headers req.body (some req.path) req.method)),
               meta := some [] }) := by
  refine ⟨?_, ?_, ?_, ?_⟩
  · by_cases htool : pyTruthyS t
    · simp [classify_client, htool]
    · by_cases h5 : 5 ≤ h.length
      · have hlen : 5 ≤ (lastK 5 h).length := by
          simp [lastK, List.length_drop]
          omega
        unfold classify_client
        rw [lastK_lastK]
        simp [htool, h5, hlen]
      · have heq : lastK 5 h = h := by
          unfold lastK
          rw [show h.length - 5 = 0 from by omega]
          simp
        rw [heq]
  · intro hparse
    simp [httpHandle, hparse]
  · intro hsome
    rcases Option.isSome_iff_exists.mp hsome with ⟨req, hreq⟩
    constructor
    · simp [httpHandle, hreq, updateHistory_lookup_self]
    · intro hne
      simp [httpHandle, hreq, updateHistory_lookup_other _ _ _ _ hne]
  · intro req hreq
    simp [httpHandle, hreq]

/-- Concrete instantiation of `http_history_c10`: a parsed request appends
the timestamp to its own IP's history and leaves another IP's history
alone; classification ignores entries before the last five. -/
theorem http_history_c10_witness :
    classify_client ["x1", "x2", "2024-01-01T00:00:00.000000",
      "2024-01-01T00:00:00.100000", "2024-01-01T00:00:00.200000",
      "2024-01-01T00:00:00.300000", "2024-01-01T00:00:01.900000"] none =
      classify_client (lastK 5 ["x1", "x2", "2024-01-01T00:00:00.000000",
        "2024-01-01T00:00:00.100000", "2024-01-01T00:00:00.200000",
        "2024-01-01T00:00:00.300000", "2024-01-01T00:00:01.900000"]) none ∧
    (httpHandle [("5.5.5.5", ["t0"])] "5.5.5.5" 8080 "t1"
        ⟨["GET / HTTP/1.1", ""], []⟩).1.lookup "5.5.5.5" = some ["t0", "t1"] ∧
    (httpHandle [("5.5.5.5", ["t0"]), ("6.6.6.6", ["t9"])] "5.5.5.5" 8080 "t1"
        ⟨["GET / HTTP/1.1", ""], []⟩).1.lookup "6.6.6.6" = some ["t9"] := by
  refine ⟨?_, ?_, ?_⟩
  · exact (http_history_c10 [] "0.0.0.0" "0.0.0.0" 0 "" ⟨[], []⟩ _ none).1
  · exact ((http_history_c10 [("5.5.5.5", ["t0"])] "5.5.5.5" "9.9.9.9" 8080 "t1"
      ⟨["GET / HTTP/1.1", ""], []⟩ [] none).2.2.1 (by decide)).1
  · exact ((http_history_c10 [("5.5.5.5", ["t0"]), ("6.6.6.6", ["t9"])] "5.5.5.5"
      "6.6.6.6" 8080 "t1" ⟨["GET / HTTP/1.1", ""], []⟩ [] none).2.2.1
      (by decide)).2 (by decide)

/-! ## Claim C7 -/

/-- C7: each completed SSH round emits exactly one LOGIN event carrying
the username as path, the password as payload, and classification bot
exactly when the attempt count exceeds one; the loop runs at most three
rounds, EOF at either prompt ends the session with no further rounds,
rounds one and two answer with the retry rejection, and after round three
the final publickey/password rejection is written and nothing further is
read, so three completed rounds yield exactly three events. -/
theorem ssh_rounds_c7 :
    (∀ ip port inp, (sshSession ip port inp).1 = sshSpecEvents ip port inp) ∧
    (∀ ip port inp, (sshSession ip port inp).1.length = min 3 (sshPairs inp).length) ∧
    (∀ ip port u p a, (sshEvent ip port u p a).request_type = "LOGIN" ∧
      (sshEvent ip port u p a).path = some u ∧
      (sshEvent ip port u p a).payload = some p ∧
      (sshEvent ip port u p a).classification =
        some (if 1 < a then "bot" else "unknown")) ∧
    (∀ ip port u1 p1 u2 p2 u3 p3 rest,
      sshSession ip port (u1 :: p1 :: u2 :: p2 :: u3 :: p3 :: rest) =
        ([sshEvent ip port (stripCRLF u1) (stripCRLF p1) 1,
          sshEvent ip port (stripCRLF u2) (stripCRLF p2) 2,
          sshEvent ip port (stripCRLF u3) (stripCRLF p3) 3],
         [SshMsg.banner, SshMsg.promptLogin, SshMsg.promptPassword (stripCRLF u1),
          SshMsg.denyRetry, SshMsg.promptLogin, SshMsg.promptPassword (stripCRLF u2),
          SshMsg.denyRetry, SshMsg.promptLogin, SshMsg.promptPassword (stripCRLF u3),
          SshMsg.denyFinal])) ∧
    (∀ ip port, (sshSession ip port []).1 = []) ∧
    (∀ ip port u, (sshSession ip port [u]).1 = []) := by
  have hspec : ∀ ip port inp, (sshSession ip port inp).1 = sshSpecEvents ip port inp := by
    intro ip port inp
    rcases inp with _ | ⟨u1, _ | ⟨p1, _ | ⟨u2, _ | ⟨p2, _ | ⟨u3, _ | ⟨p3, rest⟩⟩⟩⟩⟩⟩ <;>
      simp [sshSession, sshLoop, sshSpecEvents, sshPairs, List.mapIdx_cons]
  refine ⟨hspec, ?_, ?_, ?_, ?_, ?_⟩
  · intro ip port inp
    rw [hspec]
    simp [sshSpecEvents, List.length_mapIdx, List.length_take, Nat.min_comm]
  · intro ip port u p a
    exact ⟨rfl, rfl, rfl, rfl⟩
  · intro ip port u1 p1 u2 p2 u3 p3 rest
    simp [sshSession, sshLoop]
  · intro ip port
    simp [sshSession, sshLoop]
  · intro ip port u
    simp [sshSession, sshLoop]

/-! ## Claim C8 -/

/-- C8: the FTP loop skips empty lines without emitting an event; every
other line emits exactly one event fingerprinting the verb itself, with
classification bot exactly for USER, PASS and LIST; QUIT answers the
goodbye line and stops the loop; unknown verbs get the not-implemented
reply and the loop continues; the loop ends on EOF or QUIT; and the
scenario USER a, PASS b, PWD, LIST, QUIT yields exactly five events with
the LIST transfer closed by the 226 line and the goodbye line last. -/
theorem ftp_loop_c8 :
    (∀ ip port inp, (ftpLoop ip port inp).1 = (ftpSpecLines inp).map (ftpEvent ip port)) ∧
    (∀ ip port l rest, pyStrip l = "" → ftpLoop ip port (l :: rest) = ftpLoop ip port rest) ∧
    (∀ ip port line, (ftpEvent ip port line).classification =
      some (if ftpVerb line = "USER" || ftpVerb line = "PASS" || ftpVerb line = "LIST"
        then "bot" else "unknown")) ∧
    (∀ ip port l rest, pyStrip l ≠ "" → ftpVerb (pyStrip l) = "QUIT" →
      ftpLoop ip port (l :: rest) = ([ftpEvent ip port (pyStrip l)], [FtpReply.r221])) ∧
    (∀ ip port l rest, pyStrip l ≠ "" →
      ftpVerb (pyStrip l) ≠ "USER" → ftpVerb (pyStrip l) ≠ "PASS" →
      ftpVerb (pyStrip l) ≠ "PWD" → ftpVerb (pyStrip l) ≠ "LIST" →
      ftpVerb (pyStrip l) ≠ "QUIT" →
      ftpLoop ip port (l :: rest) =
        (ftpEvent ip port (pyStrip l) :: (ftpLoop ip port rest).1,
         FtpReply.r502 :: (ftpLoop ip port rest).2)) ∧
    (ftpSession "4.4.4.4" 2121
        ["USER a\r\n", "PASS b\r\n", "PWD\r\n", "LIST\r\n", "QUIT\r\n"] =
      ([ftpEvent "4.4.4.4" 2121 "USER a", ftpEvent "4.4.4.4" 2121 "PASS b",
        ftpEvent "4.4.4.4" 2121 "PWD", ftpEvent "4.4.4.4" 2121 "LIST",
        ftpEvent "4.4.4.4" 2121 "QUIT"],
       [FtpReply.r220, FtpReply.r331, FtpReply.r530, FtpReply.r257,
        FtpReply.r150, FtpReply.listing, FtpReply.r226, FtpReply.r221])) := by
  refine ⟨?_, ?_, ?_, ?_, ?_, ?_⟩
  · intro ip port inp
    induction inp with
    | nil => simp [ftpLoop, ftpSpecLines]
    | cons l rest ih =>
      by_cases hemp : pyStrip l = ""
      · simp [ftpLoop, ftpSpecLines, hemp, ih]
      · by_cases hquit : ftpVerb (pyStrip l) = "QUIT"
        · simp [ftpLoop, ftpSpecLines, hemp, hquit]
        · simp [ftpLoop, ftpSpecLines, hemp, hquit, ih]
  · intro ip port l rest hemp
    simp [ftpLoop, hemp]
  · intro ip port line
    rfl
  · intro ip port l rest hemp hquit
    simp [ftpLoop, hemp, hquit, ftpReplies]
  · intro ip port l rest hemp h1 h2 h3 h4 h5
    simp [ftpLoop, hemp, h1, h2, h3, h4, h5, ftpReplies]
  · rfl

/-- Concrete instantiation of the conditional parts of `ftp_loop_c8`: a
whitespace-only line is skipped, and a QUIT command line ends the loop
with the goodbye reply, ignoring later input. -/
theorem ftp_loop_c8_witness :
    ftpLoop "4.4.4.4" 2121 ["  \r\n", "QUIT\r\n", "USER x\r\n"] =
      ([ftpEvent "4.4.4.4" 2121 "QUIT"], [FtpReply.r221]) := by
  rw [ftp_loop_c8.2.1 "4.4.4.4" 2121 "  \r\n" ["QUIT\r\n", "USER x\r\n"] (by decide)]
  exact ftp_loop_c8.2.2.2.1 "4.4.4.4" 2121 "QUIT\r\n" ["USER x\r\n"] (by decide) (by decide)
